import Mathlib

/-!
Shallow embedding of the emulator core in src/samsoftemuhdrv0.py.

Python integers are unbounded, and every value the core ever stores in a
register or memory cell is nonnegative (registers start at 0 and the
implemented operations ADD/AND/OR/SLT/ADDI/ANDI/ORI/LW/JAL only combine
nonnegative values with +, band, bor, comparisons and loads of packed
bytes), so machine words are modelled as Nat with no implicit masking --
exactly as in the source, which never reduces modulo 2^32 except in the
explicit band with 0xFFFFFFFF inside write_word.

Byte buffers (Python bytearray) are modelled as List Nat together with
Python slice-read and slice-assignment semantics, including the clamping
of out-of-range indices and the resizing behaviour of slice assignment,
which load_rom exercises with a negative length.
-/

/-- Python slice-index resolution for a positive-step slice over a
sequence of length len: negative indices count from the end and clamp at
0, positive indices clamp at len. -/
def pyIndex (len : Nat) (i : Int) : Nat :=
  if i < 0 then ((len : Int) + i).toNat else min i.toNat len

/-- Python slice read l[a:b] (step 1). -/
def pySlice (l : List Nat) (a b : Int) : List Nat :=
  (l.take (pyIndex l.length b)).drop (pyIndex l.length a)

/-- Python slice assignment l[a:b] = src (step 1): the addressed slice is
removed and src is spliced in at its place; the sequence resizes when the
lengths differ. -/
def pySetSlice (l : List Nat) (a b : Int) (src : List Nat) : List Nat :=
  let lo := pyIndex l.length a
  let hi := max lo (pyIndex l.length b)
  l.take lo ++ src ++ l.drop hi

/-- Big-endian 32-bit decode of a 4-byte buffer, the struct.unpack of the
format string for a big-endian unsigned 32-bit word used in the source. -/
def beUnpack : List Nat → Nat
  | b0 :: b1 :: b2 :: b3 :: _ => b0 * 0x1000000 + b1 * 0x10000 + b2 * 0x100 + b3
  | _ => 0

/-- Big-endian 32-bit encode, the struct.pack of the same format; the
argument is already reduced below 2^32 at the single call site. -/
def bePack (v : Nat) : List Nat :=
  [v / 0x1000000 % 0x100, v / 0x10000 % 0x100, v / 0x100 % 0x100, v % 0x100]

/-- Field layout of the R4300Registers namedtuple. -/
structure R4300Registers where
  gpr : List Nat
  hi : Nat
  lo : Nat
  pc : Nat
  next_pc : Nat
deriving DecidableEq

/-- Field layout of the RDRAMMemory namedtuple. -/
structure RDRAMMemory where
  dram : List Nat
  dram_size : Nat
deriving DecidableEq

/-- State of the R4300CPU class. -/
structure R4300CPU where
  registers : R4300Registers
  cop0 : List Nat
  ll_bit : Nat
  running : Bool
deriving DecidableEq

/-- Register-file layout produced by R4300CPU.reset (and by the
constructor): 32 zero GPRs, hi = lo = 0, pc at the reset vector,
no pending transfer. -/
def resetRegisters : R4300Registers :=
  { gpr := List.replicate 32 0, hi := 0, lo := 0, pc := 0x80000000, next_pc := 0 }

/-- State built by the R4300CPU constructor. -/
def R4300CPU.init : R4300CPU :=
  { registers := resetRegisters, cop0 := List.replicate 32 0, ll_bit := 0, running := false }

/-- R4300CPU.reset: re-initialise registers, cop0 and the ll bit; the
running flag is not touched. -/
def R4300CPU.reset (cpu : R4300CPU) : R4300CPU :=
  { cpu with registers := resetRegisters, cop0 := List.replicate 32 0, ll_bit := 0 }

/-- Read of gpr at an index; every index the source uses is a 5-bit field,
always within the 32-entry register list, so the default is never hit. -/
def gprRead (g : List Nat) (i : Nat) : Nat := g.getD i 0

/-- Replace the gpr list of a CPU state after an in-place element
assignment in the source. -/
def R4300CPU.withGpr (cpu : R4300CPU) (g : List Nat) : R4300CPU :=
  { cpu with registers := { cpu.registers with gpr := g } }

/-- R4300CPU.fetch_instruction: word fetch at pc, 0 when pc is outside
the window or the word would overrun the buffer. -/
def R4300CPU.fetch_instruction (cpu : R4300CPU) (memory : RDRAMMemory) : Nat :=
  if cpu.registers.pc < 0x80000000 ∨ 0x80800000 ≤ cpu.registers.pc then 0
  else
    let addr := cpu.registers.pc - 0x80000000
    if addr + 4 > memory.dram.length then 0
    else beUnpack ((memory.dram.drop addr).take 4)

/-- R4300CPU.execute_r_type: ADD, AND, OR, SLT keyed by the function
field; every other function value falls through with no effect. The
memory parameter is accepted and ignored, as in the source. -/
def R4300CPU.execute_r_type (cpu : R4300CPU) (instruction : Nat)
    (_memory : RDRAMMemory) : R4300CPU :=
  let rs := (instruction >>> 21) &&& 0x1F
  let rt := (instruction >>> 16) &&& 0x1F
  let rd := (instruction >>> 11) &&& 0x1F
  let funct := instruction &&& 0x3F
  let g := cpu.registers.gpr
  if funct = 0x20 then cpu.withGpr (g.set rd (gprRead g rs + gprRead g rt))
  else if funct = 0x24 then cpu.withGpr (g.set rd (gprRead g rs &&& gprRead g rt))
  else if funct = 0x25 then cpu.withGpr (g.set rd (gprRead g rs ||| gprRead g rt))
  else if funct = 0x2A then
    cpu.withGpr (g.set rd (if gprRead g rs < gprRead g rt then 1 else 0))
  else cpu

/-- R4300CPU.execute_i_type: ADDI, ANDI, ORI, LW. The 16-bit immediate is
widened with the high mask whenever bit 15 is set, before all four
operations, exactly as the source does; note the widened immediate is a
large positive integer, not a negative one, because the source never
reduces modulo 2^32. -/
def R4300CPU.execute_i_type (cpu : R4300CPU) (instruction opcode : Nat)
    (memory : RDRAMMemory) : R4300CPU :=
  let rs := (instruction >>> 21) &&& 0x1F
  let rt := (instruction >>> 16) &&& 0x1F
  let imm0 := instruction &&& 0xFFFF
  let immediate := if imm0 &&& 0x8000 ≠ 0 then imm0 ||| 0xFFFF0000 else imm0
  let g := cpu.registers.gpr
  if opcode = 0x08 then cpu.withGpr (g.set rt (gprRead g rs + immediate))
  else if opcode = 0x0C then cpu.withGpr (g.set rt (gprRead g rs &&& immediate))
  else if opcode = 0x0D then cpu.withGpr (g.set rt (gprRead g rs ||| immediate))
  else if opcode = 0x23 then
    let addr := gprRead g rs + immediate
    if 0x80000000 ≤ addr ∧ addr < 0x80800000 then
      let mem_addr := addr - 0x80000000
      if mem_addr + 4 ≤ memory.dram.length then
        cpu.withGpr (g.set rt (beUnpack ((memory.dram.drop mem_addr).take 4)))
      else cpu
    else cpu
  else cpu

/-- Outcome of a fallible execution stage. The registers namedtuple is
immutable: rebinding one of its fields, as the source attempts with the
next_pc assignments of execute_j_type, raises AttributeError. The
attrError constructor records that raise together with the CPU state as
mutated so far -- in-place element writes into the gpr list that happened
before the raise do persist. -/
inductive ExecResult where
  | ok (cpu : R4300CPU)
  | attrError (cpu : R4300CPU)
deriving DecidableEq

/-- CPU state carried by an outcome, whether the stage completed or
aborted on the raised error. -/
def ExecResult.cpu : ExecResult → R4300CPU
  | .ok c => c
  | .attrError c => c

/-- True exactly when the outcome is a raised AttributeError. -/
def ExecResult.raised : ExecResult → Bool
  | .ok _ => false
  | .attrError _ => true

/-- R4300CPU.execute_j_type: both J and JAL attempt the field rebinding
of next_pc on the registers namedtuple, which raises AttributeError, so
no pending transfer is ever recorded. The transfer-target expression on
the right-hand side is evaluated first but has no effect. J raises with
the state untouched; JAL first performs the in-place link write
gpr[31] = pc + 8, which sticks, and then raises. -/
def R4300CPU.execute_j_type (cpu : R4300CPU) (instruction opcode : Nat) : ExecResult :=
  let _target := instruction &&& 0x3FFFFFF
  if opcode = 2 then
    ExecResult.attrError cpu
  else if opcode = 3 then
    ExecResult.attrError (cpu.withGpr (cpu.registers.gpr.set 31 (cpu.registers.pc + 8)))
  else ExecResult.ok cpu

/-- R4300CPU.execute_instruction: primary-opcode dispatch. The R and I
families cannot raise; the J family propagates the AttributeError of
execute_j_type. -/
def R4300CPU.execute_instruction (cpu : R4300CPU) (instruction : Nat)
    (memory : RDRAMMemory) : ExecResult :=
  let opcode := (instruction >>> 26) &&& 0x3F
  if opcode = 0 then ExecResult.ok (cpu.execute_r_type instruction memory)
  else if opcode = 2 ∨ opcode = 3 then cpu.execute_j_type instruction opcode
  else ExecResult.ok (cpu.execute_i_type instruction opcode memory)

/-- R4300CPU.step: no-op when halted; otherwise fetch, execute, then
retire the pc -- a nonzero next_pc would become the new pc and be
cleared, else pc advances by 4 (these updates go through the namedtuple
_replace, which does work). A raise inside execute propagates out of
step before the pc update, carrying the partially mutated state; the
caller (the emulation loop) has no handler, so the run dies there. -/
def R4300CPU.step (cpu : R4300CPU) (memory : RDRAMMemory) : ExecResult :=
  if !cpu.running then ExecResult.ok cpu
  else
    let instruction := cpu.fetch_instruction memory
    match cpu.execute_instruction instruction memory with
    | ExecResult.attrError cpu1 => ExecResult.attrError cpu1
    | ExecResult.ok cpu1 =>
      ExecResult.ok
        (if cpu1.registers.next_pc ≠ 0 then
          { cpu1 with registers := { cpu1.registers with
              pc := cpu1.registers.next_pc, next_pc := 0 } }
        else
          { cpu1 with registers := { cpu1.registers with pc := cpu1.registers.pc + 4 } })

/-- State of the RDP class. -/
structure RDP where
  command_buffer : List Nat
  current_command : Nat
  triangles_rendered : Nat
deriving DecidableEq

/-- State built by the RDP constructor. -/
def RDP.init : RDP :=
  { command_buffer := [], current_command := 0, triangles_rendered := 0 }

/-- RDP.render_triangle: bump the primitive counter. -/
def RDP.render_triangle (r : RDP) (_high _low : Nat) : RDP :=
  { r with triangles_rendered := r.triangles_rendered + 1 }

/-- RDP.execute_rdp_command: a pair whose command-type field, bits 29..24
of the high word, lies in the inclusive primitive range renders a
triangle; anything else is dropped silently. -/
def RDP.execute_rdp_command (r : RDP) (high low : Nat) : RDP :=
  let command_type := (high >>> 24) &&& 0x3F
  if 0x08 ≤ command_type ∧ command_type ≤ 0x0F then r.render_triangle high low else r

/-- RDP.process_command: append the word; once two words are queued,
consume them as a pair and clear the queue. -/
def RDP.process_command (r : RDP) (command : Nat) : RDP :=
  let r1 := { r with command_buffer := r.command_buffer ++ [command] }
  if 2 ≤ r1.command_buffer.length then
    let cmd_high := r1.command_buffer.getD 0 0
    let cmd_low := r1.command_buffer.getD 1 0
    let r2 := r1.execute_rdp_command cmd_high cmd_low
    { r2 with command_buffer := [] }
  else r1

/-- Submission of a sequence of words, one process_command call each. -/
def submitAll (r : RDP) (ws : List Nat) : RDP :=
  ws.foldl RDP.process_command r

/-- State of the Memory class. -/
structure Memory where
  rdram : RDRAMMemory
  rom_data : Option (List Nat)
  rom_size : Nat
deriving DecidableEq

/-- State built by the Memory constructor: a 4 MiB zeroed buffer. -/
def Memory.init : Memory :=
  { rdram := { dram := List.replicate 0x400000 0, dram_size := 0x400000 },
    rom_data := none, rom_size := 0 }

/-- Memory.load_rom, modelled at the byte level: the file read is
abstracted into the given byte list (the except branch of the source only
catches file-system errors, so with the bytes in hand the function always
reaches the return of True). A nonempty image is copied from after the
0x1000-byte header to offset 0 via a Python slice assignment whose length
argument goes negative for images shorter than the header. -/
def Memory.load_rom (m : Memory) (bytes : List Nat) : Memory × Bool :=
  let m1 : Memory := { m with rom_data := some bytes, rom_size := bytes.length }
  if 0 < m1.rom_size then
    let rom_offset : Int := 0x1000
    let dram_offset : Int := 0
    let copy_size : Int :=
      min ((m1.rom_size : Int) - rom_offset) ((m1.rdram.dram.length : Int) - dram_offset)
    let src := pySlice bytes rom_offset (rom_offset + copy_size)
    let dram1 := pySetSlice m1.rdram.dram dram_offset (dram_offset + copy_size) src
    ({ m1 with rdram := { m1.rdram with dram := dram1 } }, true)
  else (m1, true)

/-- Memory.read_word: 0 outside the checked window or when the word would
overrun the buffer, else the big-endian word at the mapped offset; no
alignment check appears in the source. -/
def Memory.read_word (m : Memory) (address : Nat) : Nat :=
  if 0x80000000 ≤ address ∧ address < 0x80800000 then
    let offset := address - 0x80000000
    if offset + 4 ≤ m.rdram.dram.length then
      beUnpack ((m.rdram.dram.drop offset).take 4)
    else 0
  else 0

/-- Memory.write_word: masked to 32 bits and stored big-endian at the
mapped offset when the checked window and the buffer admit it, silently
dropped otherwise. -/
def Memory.write_word (m : Memory) (address value : Nat) : Memory :=
  if 0x80000000 ≤ address ∧ address < 0x80800000 then
    let offset := address - 0x80000000
    if offset + 4 ≤ m.rdram.dram.length then
      { m with rdram := { m.rdram with
          dram := pySetSlice m.rdram.dram offset (offset + 4) (bePack (value &&& 0xFFFFFFFF)) } }
    else m
  else m

/-! ### General helper lemmas -/

theorem pyIndex_coe (len n : Nat) : pyIndex len (n : Int) = min n len := by
  simp [pyIndex]

theorem pyIndex_neg (len : Nat) (i : Int) (h : i < 0) :
    pyIndex len i = ((len : Int) + i).toNat := by
  simp [pyIndex, h]

theorem bePack_length (v : Nat) : (bePack v).length = 4 := by
  simp [bePack]

theorem beUnpack_bePack (v : Nat) (h : v < 0x100000000) :
    beUnpack (bePack v) = v := by
  simp only [bePack, beUnpack]
  omega

theorem getD_set_self (l : List Nat) (i v d : Nat) (h : i < l.length) :
    (l.set i v).getD i d = v := by
  simp [List.getD_eq_getElem?_getD, List.getElem?_set_self (by simpa using h)]

theorem drop_take_four (l : List Nat) (o : Nat) (h : o + 4 ≤ l.length) :
    (l.drop o).take 4 =
      [l.getD o 0, l.getD (o + 1) 0, l.getD (o + 2) 0, l.getD (o + 3) 0] := by
  induction l generalizing o with
  | nil => simp at h
  | cons x t ih =>
    cases o with
    | zero =>
      cases t with
      | nil => simp at h
      | cons b t1 =>
        cases t1 with
        | nil => simp at h
        | cons c t2 =>
          cases t2 with
          | nil => simp at h
          | cons d t3 => simp [List.getD]
    | succ o =>
      have ht : o + 4 ≤ t.length := by simpa using h
      simp only [List.drop_succ_cons]
      rw [ih o ht]
      simp [List.getD]

/-! ### Characterisations of the Memory operations -/

theorem read_word_in_range (m : Memory) (a : Nat)
    (h1 : 0x80000000 ≤ a) (h2 : a < 0x80800000)
    (h3 : a - 0x80000000 + 4 ≤ m.rdram.dram.length) :
    m.read_word a = beUnpack ((m.rdram.dram.drop (a - 0x80000000)).take 4) := by
  simp [Memory.read_word, h1, h2, h3]

theorem read_word_out_of_range (m : Memory) (a : Nat)
    (h : ¬(0x80000000 ≤ a ∧ a < 0x80800000 ∧ a - 0x80000000 + 4 ≤ m.rdram.dram.length)) :
    m.read_word a = 0 := by
  unfold Memory.read_word
  by_cases h1 : 0x80000000 ≤ a ∧ a < 0x80800000
  · have h3 : ¬(a - 0x80000000 + 4 ≤ m.rdram.dram.length) := fun hh => h ⟨h1.1, h1.2, hh⟩
    simp [h1, h3]
  · simp [h1]

theorem write_word_dram (m : Memory) (a v : Nat)
    (h1 : 0x80000000 ≤ a) (h2 : a < 0x80800000)
    (h3 : a - 0x80000000 + 4 ≤ m.rdram.dram.length) :
    (m.write_word a v).rdram.dram =
      m.rdram.dram.take (a - 0x80000000) ++ bePack (v &&& 0xFFFFFFFF) ++
        m.rdram.dram.drop (a - 0x80000000 + 4) := by
  have hcond : (0x80000000 ≤ a ∧ a < 0x80800000) := ⟨h1, h2⟩
  simp only [Memory.write_word, hcond, and_self, if_true, h3, if_pos]
  simp only [pySetSlice, pyIndex_coe]
  have hlo : min (a - 0x80000000) m.rdram.dram.length = a - 0x80000000 := by omega
  have hco : ((a - 0x80000000 : Nat) : Int) + 4 = ((a - 0x80000000 + 4 : Nat) : Int) := by
    push_cast; ring
  rw [hco, pyIndex_coe, hlo]
  have hhi : max (a - 0x80000000) (min (a - 0x80000000 + 4) m.rdram.dram.length) =
      a - 0x80000000 + 4 := by omega
  rw [hhi]

theorem write_word_unchanged (m : Memory) (a v : Nat)
    (h : ¬(0x80000000 ≤ a ∧ a < 0x80800000 ∧ a - 0x80000000 + 4 ≤ m.rdram.dram.length)) :
    m.write_word a v = m := by
  unfold Memory.write_word
  by_cases h1 : 0x80000000 ≤ a ∧ a < 0x80800000
  · have h3 : ¬(a - 0x80000000 + 4 ≤ m.rdram.dram.length) := fun hh => h ⟨h1.1, h1.2, hh⟩
    simp [h1, h3]
  · simp [h1]

theorem write_word_length (m : Memory) (a v : Nat) :
    (m.write_word a v).rdram.dram.length = m.rdram.dram.length := by
  by_cases h : (0x80000000 ≤ a ∧ a < 0x80800000 ∧ a - 0x80000000 + 4 ≤ m.rdram.dram.length)
  · rw [write_word_dram m a v h.1 h.2.1 h.2.2]
    simp [bePack_length, List.length_append, List.length_take, List.length_drop]
    omega
  · rw [write_word_unchanged m a v h]

theorem init_dram : Memory.init.rdram.dram = List.replicate 0x400000 0 := rfl

theorem init_dram_length : Memory.init.rdram.dram.length = 0x400000 := by
  rw [init_dram, List.length_replicate]

theorem load_rom_eq (m : Memory) (bytes : List Nat) (h : 0 < bytes.length) :
    (m.load_rom bytes).1.rdram.dram =
      pySetSlice m.rdram.dram 0
        (min ((bytes.length : Int) - 0x1000) (m.rdram.dram.length : Int))
        (pySlice bytes 0x1000
          (0x1000 + min ((bytes.length : Int) - 0x1000) (m.rdram.dram.length : Int))) := by
  simp [Memory.load_rom, h]

theorem load_rom_true (m : Memory) (bytes : List Nat) :
    (m.load_rom bytes).2 = true := by
  simp only [Memory.load_rom]
  split <;> rfl

theorem load_rom_skip (m : Memory) (bytes : List Nat) (h : bytes.length = 0) :
    (m.load_rom bytes).1.rdram = m.rdram := by
  simp [Memory.load_rom, h]

theorem load_rom_copy (m : Memory) (bytes : List Nat) (h : 0x1000 < bytes.length) :
    (m.load_rom bytes).1.rdram.dram =
      (bytes.drop 0x1000).take (min (bytes.length - 0x1000) m.rdram.dram.length) ++
        m.rdram.dram.drop (min (bytes.length - 0x1000) m.rdram.dram.length) := by
  set R := bytes.length with hR
  set L := m.rdram.dram.length with hL
  set c := min (R - 0x1000) L with hc
  rw [load_rom_eq m bytes (by omega)]
  have h1 : min ((R : Int) - 0x1000) (L : Int) = (c : Int) := by omega
  simp only [h1]
  have e1 : pyIndex R (0x1000 + (c : Int)) = 0x1000 + c := by
    unfold pyIndex; split <;> omega
  have e2 : pyIndex R (0x1000 : Int) = 0x1000 := by
    unfold pyIndex; split <;> omega
  have e3 : pyIndex L (c : Int) = c := by
    unfold pyIndex; split <;> omega
  have e4 : pyIndex L (0 : Int) = 0 := by
    unfold pyIndex; split <;> omega
  simp only [pySlice, pySetSlice, ← hR, ← hL, e1, e2, e3, e4]
  rw [List.drop_take]
  have e5 : 0x1000 + c - 0x1000 = c := by omega
  rw [e5]
  simp

theorem load_rom_keep_length (m : Memory) (bytes : List Nat)
    (h : bytes.length = 0 ∨ 0x1000 ≤ bytes.length) :
    (m.load_rom bytes).1.rdram.dram.length = m.rdram.dram.length := by
  rcases h with h | h
  · rw [load_rom_skip m bytes h]
  · set R := bytes.length with hR
    set L := m.rdram.dram.length with hL
    set c := min (R - 0x1000) L with hc
    rw [load_rom_eq m bytes (by omega)]
    have h1 : min ((R : Int) - 0x1000) (L : Int) = (c : Int) := by omega
    simp only [h1]
    have e1 : pyIndex R (0x1000 + (c : Int)) = 0x1000 + c := by
      unfold pyIndex; split <;> omega
    have e2 : pyIndex R (0x1000 : Int) = min 0x1000 R := by
      unfold pyIndex; split <;> omega
    have e3 : pyIndex L (c : Int) = c := by
      unfold pyIndex; split <;> omega
    have e4 : pyIndex L (0 : Int) = 0 := by
      unfold pyIndex; split <;> omega
    simp only [pySlice, pySetSlice, ← hR, ← hL, e1, e2, e3, e4]
    simp only [List.length_append, List.length_take, List.length_drop, List.take_nil,
      List.length_nil, List.take_zero, List.drop_zero]
    omega

theorem load_rom_shrink (m : Memory) (bytes : List Nat)
    (hL0 : m.rdram.dram.length = 0x400000)
    (h1 : 1 ≤ bytes.length) (h2 : bytes.length < 0x1000) :
    (m.load_rom bytes).1.rdram.dram.length = 0x1000 - bytes.length := by
  set R := bytes.length with hR
  set L := m.rdram.dram.length with hL
  rw [load_rom_eq m bytes (by omega)]
  have h3 : min ((R : Int) - 0x1000) (L : Int) = (R : Int) - 0x1000 := by omega
  simp only [h3]
  have e1 : pyIndex R (0x1000 + ((R : Int) - 0x1000)) = R := by
    unfold pyIndex; split <;> omega
  have e2 : pyIndex R (0x1000 : Int) = min 0x1000 R := by
    unfold pyIndex; split <;> omega
  have e3 : pyIndex L ((R : Int) - 0x1000) = L - (0x1000 - R) := by
    unfold pyIndex; split <;> omega
  have e4 : pyIndex L (0 : Int) = 0 := by
    unfold pyIndex; split <;> omega
  simp only [pySlice, pySetSlice, ← hR, ← hL, e1, e2, e3, e4]
  simp only [List.length_append, List.length_take, List.length_drop,
    List.take_zero, List.length_nil, List.drop_zero]
  omega

/-! ### Claims C3 to C6: the Memory component -/

/-- C3 counterexample: loadImage of the empty byte sequence does not fail
with ImageTooSmall -- the source reports success (True) and leaves the
memory untouched; no error path exists for an empty image. -/
theorem c3_counterexample :
    (Memory.init.load_rom []).2 = true ∧
      (Memory.init.load_rom []).1.rdram = Memory.init.rdram :=
  ⟨load_rom_true Memory.init [], load_rom_skip Memory.init [] rfl⟩

/-- C3 (amended): loadImage never fails -- every input, including the
empty one, is reported as success; when the input length exceeds the
0x1000-byte header, the bytes after the header, clamped to the memory
size, are copied into memory starting at offset 0 (the remainder of the
freshly constructed buffer staying zero). -/
theorem c3_load_rom_behaviour (bytes : List Nat) :
    (Memory.init.load_rom bytes).2 = true ∧
    (0x1000 < bytes.length →
      (Memory.init.load_rom bytes).1.rdram.dram =
        (bytes.drop 0x1000).take (min (bytes.length - 0x1000) 0x400000) ++
          List.replicate (0x400000 - min (bytes.length - 0x1000) 0x400000) 0) := by
  refine ⟨load_rom_true _ _, fun h => ?_⟩
  rw [load_rom_copy Memory.init bytes h, init_dram_length, init_dram, List.drop_replicate]

/-- C3 witness: a 0x1001-byte image exceeds the header, so exactly one
byte lands at offset 0. -/
theorem c3_witness :
    0x1000 < (List.replicate 0x1001 7).length ∧
    (Memory.init.load_rom (List.replicate 0x1001 7)).1.rdram.dram =
      ((List.replicate 0x1001 7).drop 0x1000).take
          (min ((List.replicate 0x1001 7).length - 0x1000) 0x400000) ++
        List.replicate (0x400000 - min ((List.replicate 0x1001 7).length - 0x1000) 0x400000) 0 :=
  ⟨by rw [List.length_replicate]; norm_num,
    (c3_load_rom_behaviour (List.replicate 0x1001 7)).2 (by rw [List.length_replicate]; norm_num)⟩

/-- C4: on a memory whose buffer has the constructed 4 MiB size, a
writeWord to any address whose 4 bytes lie inside the mapped window,
followed by a readWord of the same address, returns the value masked to
32 bits. -/
theorem c4_write_then_read (m : Memory) (a v : Nat)
    (hlen : m.rdram.dram.length = 0x400000)
    (h1 : 0x80000000 ≤ a) (h2 : a + 4 ≤ 0x80000000 + 0x400000) :
    (m.write_word a v).read_word a = v &&& 0xFFFFFFFF := by
  have h3 : a < 0x80800000 := by omega
  have h4 : a - 0x80000000 + 4 ≤ m.rdram.dram.length := by omega
  have hw := write_word_dram m a v h1 h3 h4
  have hlen2 : (m.write_word a v).rdram.dram.length = m.rdram.dram.length :=
    write_word_length m a v
  have h5 : a - 0x80000000 + 4 ≤ (m.write_word a v).rdram.dram.length := by omega
  rw [read_word_in_range _ a h1 h3 h5, hw]
  have hto : (m.rdram.dram.take (a - 0x80000000)).length = a - 0x80000000 := by
    rw [List.length_take]; omega
  rw [List.append_assoc, List.drop_left' hto, List.take_left' (bePack_length _)]
  exact beUnpack_bePack _ (by have := Nat.and_le_right (n := v) (m := 0xFFFFFFFF); omega)

/-- C4 witness: a value above 2^32 comes back masked. -/
theorem c4_witness :
    (Memory.init.write_word 0x80000000 0x123456789).read_word 0x80000000 = 0x23456789 :=
  (c4_write_then_read Memory.init 0x80000000 0x123456789 init_dram_length
    (by norm_num) (by norm_num)).trans (by decide)

/-- C5 counterexample: readWord performs no alignment check -- the
misaligned address base + 1 on a memory holding 01 02 03 04 at offset 0
returns the nonzero word 0x02030400 straddling the stored bytes, where
the claim requires 0. -/
theorem c5_counterexample :
    (Memory.init.write_word 0x80000000 0x01020304).read_word 0x80000001 = 0x02030400 ∧
      (0x02030400 : Nat) ≠ 0 := by
  refine ⟨?_, by decide⟩
  have hmask : (0x01020304 : Nat) &&& 0xFFFFFFFF = 0x01020304 := by decide
  have hd : (Memory.init.write_word 0x80000000 0x01020304).rdram.dram =
      0x01 :: 0x02 :: 0x03 :: 0x04 :: List.replicate (0x400000 - 4) 0 := by
    rw [write_word_dram Memory.init 0x80000000 0x01020304 (by norm_num) (by norm_num)
      (by rw [init_dram_length]; norm_num)]
    rw [init_dram, hmask]
    norm_num [bePack, List.take_replicate, List.drop_replicate]
  have hl : (Memory.init.write_word 0x80000000 0x01020304).rdram.dram.length = 0x400000 := by
    rw [write_word_length, init_dram_length]
  rw [read_word_in_range _ 0x80000001 (by norm_num) (by norm_num) (by rw [hl]; norm_num)]
  rw [hd]
  norm_num [List.take_succ_cons, List.drop_succ_cons, List.take_replicate, beUnpack]

/-- C5 (amended): readWord returns 0 exactly when the address falls
outside the checked window or the 4-byte word would overrun the buffer;
otherwise -- with no alignment condition whatsoever -- it returns the
big-endian word assembled from the 4 bytes at offset address - base. -/
theorem c5_read_word_correct (m : Memory) (a : Nat) :
    (0x80000000 ≤ a → a < 0x80800000 → a - 0x80000000 + 4 ≤ m.rdram.dram.length →
      m.read_word a =
        m.rdram.dram.getD (a - 0x80000000) 0 * 0x1000000 +
          m.rdram.dram.getD (a - 0x80000000 + 1) 0 * 0x10000 +
          m.rdram.dram.getD (a - 0x80000000 + 2) 0 * 0x100 +
          m.rdram.dram.getD (a - 0x80000000 + 3) 0) ∧
    (¬(0x80000000 ≤ a ∧ a < 0x80800000 ∧ a - 0x80000000 + 4 ≤ m.rdram.dram.length) →
      m.read_word a = 0) := by
  refine ⟨fun h1 h2 h3 => ?_, read_word_out_of_range m a⟩
  rw [read_word_in_range m a h1 h2 h3, drop_take_four _ _ h3]
  simp [beUnpack]

/-- C5 witness: an in-window misaligned read on a small buffer assembles
the straddling bytes, and an out-of-window read gives 0. -/
theorem c5_witness :
    (Memory.mk (RDRAMMemory.mk [0x11, 0x22, 0x33, 0x44, 0x55] 5) none 0).read_word
        0x80000001 = 0x22334455 ∧
      (Memory.mk (RDRAMMemory.mk [0x11, 0x22, 0x33, 0x44, 0x55] 5) none 0).read_word
        0x100 = 0 :=
  ⟨((c5_read_word_correct _ 0x80000001).1 (by decide) (by decide) (by decide)).trans
      (by decide),
    (c5_read_word_correct _ 0x100).2 (by decide)⟩

/-- C6 counterexample: a 1-byte image makes load_rom assign an empty
slice to a negatively indexed region, which deletes most of the RAM
buffer -- its length drops from 0x400000 to 0xFFF. -/
theorem c6_counterexample :
    (Memory.init.load_rom [7]).1.rdram.dram.length = 0xFFF ∧
      (0xFFF : Nat) ≠ 0x400000 := by
  refine ⟨?_, by decide⟩
  rw [load_rom_shrink Memory.init [7] init_dram_length (by norm_num) (by norm_num)]
  norm_num

/-- C6 (amended): the buffer is 0x400000 bytes at construction;
write_word preserves the length for every address and value, and
load_rom preserves it for the empty image and for images of at least
0x1000 bytes, but an image of length between 1 and 0xFFF shrinks the
buffer to 0x1000 minus the image length (read_word mutates nothing). -/
theorem c6_length_invariant :
    Memory.init.rdram.dram.length = 0x400000 ∧
    (∀ (m : Memory) (a v : Nat),
      (m.write_word a v).rdram.dram.length = m.rdram.dram.length) ∧
    (∀ (m : Memory) (bytes : List Nat), bytes.length = 0 ∨ 0x1000 ≤ bytes.length →
      (m.load_rom bytes).1.rdram.dram.length = m.rdram.dram.length) ∧
    (∀ (m : Memory) (bytes : List Nat), m.rdram.dram.length = 0x400000 →
      1 ≤ bytes.length → bytes.length < 0x1000 →
      (m.load_rom bytes).1.rdram.dram.length = 0x1000 - bytes.length) :=
  ⟨init_dram_length, write_word_length, load_rom_keep_length, load_rom_shrink⟩

/-- C6 witness: the three mutating cases evaluated on concrete inputs. -/
theorem c6_witness :
    (Memory.init.write_word 0x80000000 5).rdram.dram.length = 0x400000 ∧
    (Memory.init.load_rom []).1.rdram.dram.length = 0x400000 ∧
    (Memory.init.load_rom [7]).1.rdram.dram.length = 0xFFF := by
  refine ⟨?_, ?_, ?_⟩
  · rw [c6_length_invariant.2.1 Memory.init 0x80000000 5, init_dram_length]
  · rw [c6_length_invariant.2.2.1 Memory.init [] (Or.inl rfl), init_dram_length]
  · rw [c6_length_invariant.2.2.2 Memory.init [7] init_dram_length (by norm_num) (by norm_num)]
    norm_num

/-! ### Claims C1, C2, C7: the instruction executor -/

/-- CPU state with register 1 holding 10, the C2 scenario. -/
def cpuC2 : R4300CPU := R4300CPU.init.withGpr ((List.replicate 32 0).set 1 10)

/-- Empty memory stub for instructions that never touch memory. -/
def memNone : RDRAMMemory := RDRAMMemory.mk [] 0

/-- C2 counterexample: ADDI rs=1 rt=2 imm=0xFFFF with gpr[1] = 10 leaves
gpr[2] = 0x100000009 = 9 + 2^32, not 9 -- the executor adds the widened
immediate without any reduction modulo 2^32. -/
theorem c2_counterexample :
    gprRead ((cpuC2.execute_instruction 0x2022FFFF memNone).cpu).registers.gpr 2 =
        0x100000009 ∧ (0x100000009 : Nat) ≠ 9 := by
  decide

/-- C2 (amended): executing ADDI whose immediate field is 0xFFFF when
gpr[rs] holds 10 leaves gpr[rt] equal to 9 + 2^32 = 0x100000009, which is
congruent to 9 modulo 2^32 but not equal to it. -/
theorem c2_addi_unmasked (cpu : R4300CPU) (mem : RDRAMMemory) (instr : Nat)
    (hg : cpu.registers.gpr.length = 32)
    (hop : (instr >>> 26) &&& 0x3F = 0x08)
    (himm : instr &&& 0xFFFF = 0xFFFF)
    (hrs : gprRead cpu.registers.gpr ((instr >>> 21) &&& 0x1F) = 10) :
    gprRead ((cpu.execute_instruction instr mem).cpu).registers.gpr ((instr >>> 16) &&& 0x1F) =
      0x100000009 := by
  have h1 : ((0xFFFF : Nat) &&& 0x8000) = 0x8000 := by decide
  have h2 : ((0xFFFF : Nat) ||| 0xFFFF0000) = 0xFFFFFFFF := by decide
  have hrt : (instr >>> 16) &&& 0x1F < 32 :=
    lt_of_le_of_lt Nat.and_le_right (by norm_num)
  simp only [R4300CPU.execute_instruction, hop]
  norm_num
  simp only [ExecResult.cpu]
  simp only [R4300CPU.execute_i_type, himm, h1, h2, R4300CPU.withGpr, if_true]
  rw [if_pos (show (32768 : Nat) ≠ 0 by norm_num)]
  rw [hrs]
  unfold gprRead
  rw [getD_set_self _ _ _ _ (by rw [hg]; exact hrt)]

/-- C2 witness: the amended theorem applied to the concrete scenario. -/
theorem c2_witness :
    gprRead ((cpuC2.execute_instruction 0x2022FFFF memNone).cpu).registers.gpr
        ((0x2022FFFF >>> 16) &&& 0x1F) = 0x100000009 :=
  c2_addi_unmasked cpuC2 memNone 0x2022FFFF (by decide) (by decide) (by decide) (by decide)

/-- C7: whenever bit 15 of the 16-bit immediate field is set, ANDI masks
and ORI ors gpr[rs] with the immediate widened by 0xFFFF0000 -- the same
sign extension path ADDI uses, applied before the bitwise operation. -/
theorem c7_logical_imm_sign_extended (cpu : R4300CPU) (mem : RDRAMMemory) (instr : Nat)
    (hbit : (instr &&& 0xFFFF) &&& 0x8000 ≠ 0) :
    ((instr >>> 26) &&& 0x3F = 0x0C →
      ((cpu.execute_instruction instr mem).cpu).registers.gpr =
        cpu.registers.gpr.set ((instr >>> 16) &&& 0x1F)
          (gprRead cpu.registers.gpr ((instr >>> 21) &&& 0x1F) &&&
            ((instr &&& 0xFFFF) ||| 0xFFFF0000))) ∧
    ((instr >>> 26) &&& 0x3F = 0x0D →
      ((cpu.execute_instruction instr mem).cpu).registers.gpr =
        cpu.registers.gpr.set ((instr >>> 16) &&& 0x1F)
          (gprRead cpu.registers.gpr ((instr >>> 21) &&& 0x1F) |||
            ((instr &&& 0xFFFF) ||| 0xFFFF0000))) := by
  constructor <;> intro hop <;>
    simp only [R4300CPU.execute_instruction, hop] <;> norm_num <;>
    simp only [ExecResult.cpu] <;>
    simp only [R4300CPU.execute_i_type, if_pos hbit, R4300CPU.withGpr] <;>
    norm_num

/-- C7 witness: ANDI and ORI with immediate 0xFF00 against register 1
holding 0x12345678. -/
theorem c7_witness :
    (((R4300CPU.init.withGpr ((List.replicate 32 0).set 1 0x12345678)).execute_instruction
        0x3022FF00 memNone).cpu).registers.gpr =
      ((List.replicate 32 0).set 1 0x12345678).set 2 0x12345600 ∧
    (((R4300CPU.init.withGpr ((List.replicate 32 0).set 1 0x12345678)).execute_instruction
        0x3422FF00 memNone).cpu).registers.gpr =
      ((List.replicate 32 0).set 1 0x12345678).set 2 0xFFFFFF78 :=
  ⟨((c7_logical_imm_sign_extended _ memNone 0x3022FF00 (by decide)).1 (by decide)).trans
      (by decide),
    ((c7_logical_imm_sign_extended _ memNone 0x3422FF00 (by decide)).2 (by decide)).trans
      (by decide)⟩

/-- Running CPU in the freshly constructed (reset) state, as after the
start operation sets the running flag. -/
def cpuRun : R4300CPU := { R4300CPU.init with running := true }

/-- Full-size RAM whose first word is the big-endian encoding of
0x20000007, the instruction ADDI rs=0 rt=0 imm=7. -/
def memC1 : RDRAMMemory :=
  RDRAMMemory.mk (0x20 :: 0x00 :: 0x00 :: 0x07 :: List.replicate (0x400000 - 4) 0) 0x400000

theorem memC1_length : memC1.dram.length = 0x400000 := by
  show (0x20 :: 0x00 :: 0x00 :: 0x07 :: List.replicate (0x400000 - 4) 0).length = 0x400000
  rw [List.length_cons, List.length_cons, List.length_cons, List.length_cons,
    List.length_replicate]

theorem fetch_memC1 : cpuRun.fetch_instruction memC1 = 0x20000007 := by
  have hpc : cpuRun.registers.pc = 0x80000000 := rfl
  unfold R4300CPU.fetch_instruction
  rw [hpc, memC1_length]
  rw [if_neg (by norm_num : ¬((0x80000000 : Nat) < 0x80000000 ∨ (0x80800000 : Nat) ≤ 0x80000000))]
  rw [if_neg (by norm_num : ¬((0x80000000 : Nat) - 0x80000000 + 4 > 0x400000))]
  have hsub : (0x80000000 : Nat) - 0x80000000 = 0 := by norm_num
  rw [hsub]
  rfl

/-- C1: the executor does not discard writes to register 0 -- one step of
a running, freshly reset CPU over a memory whose first instruction is
ADDI rt=0 rs=0 imm=7 completes without raising and leaves gpr[0] = 7,
not 0. -/
theorem c1_register_zero_overwritten :
    gprRead ((cpuRun.step memC1).cpu).registers.gpr 0 = 7 ∧
    (cpuRun.step memC1).raised = false ∧ (7 : Nat) ≠ 0 := by
  refine ⟨?_, ?_, by decide⟩ <;>
    (unfold R4300CPU.step
     rw [fetch_memC1]
     rw [if_neg (by decide : ¬(!cpuRun.running) = true)]
     decide)

/-! ### Claims C8 and C10: jumps, the raised AttributeError, pc alignment -/

/-- Retirement stage of R4300CPU.step (the pc update applied after a
non-raising execute), split out to reason about the step without
duplicating the executed state. -/
def retireAux (cpu1 : R4300CPU) : R4300CPU :=
  if cpu1.registers.next_pc ≠ 0 then
    { cpu1 with registers := { cpu1.registers with pc := cpu1.registers.next_pc, next_pc := 0 } }
  else
    { cpu1 with registers := { cpu1.registers with pc := cpu1.registers.pc + 4 } }

theorem step_ok (cpu : R4300CPU) (mem : RDRAMMemory) (cpu1 : R4300CPU)
    (hrun : cpu.running = true)
    (h : cpu.execute_instruction (cpu.fetch_instruction mem) mem = ExecResult.ok cpu1) :
    cpu.step mem = ExecResult.ok (retireAux cpu1) := by
  simp only [R4300CPU.step]
  rw [if_neg (by simp [hrun] : ¬(!cpu.running) = true), h]
  rfl

theorem step_err (cpu : R4300CPU) (mem : RDRAMMemory) (cpu1 : R4300CPU)
    (hrun : cpu.running = true)
    (h : cpu.execute_instruction (cpu.fetch_instruction mem) mem = ExecResult.attrError cpu1) :
    cpu.step mem = ExecResult.attrError cpu1 := by
  simp only [R4300CPU.step]
  rw [if_neg (by simp [hrun] : ¬(!cpu.running) = true), h]

theorem r_type_regs (cpu : R4300CPU) (instr : Nat) (mem : RDRAMMemory) :
    (cpu.execute_r_type instr mem).registers.pc = cpu.registers.pc ∧
    (cpu.execute_r_type instr mem).registers.next_pc = cpu.registers.next_pc := by
  simp only [R4300CPU.execute_r_type, R4300CPU.withGpr]
  split_ifs <;> exact ⟨rfl, rfl⟩

theorem i_type_regs (cpu : R4300CPU) (instr opcode : Nat) (mem : RDRAMMemory) :
    (cpu.execute_i_type instr opcode mem).registers.pc = cpu.registers.pc ∧
    (cpu.execute_i_type instr opcode mem).registers.next_pc = cpu.registers.next_pc := by
  simp only [R4300CPU.execute_i_type, R4300CPU.withGpr]
  split_ifs <;> exact ⟨rfl, rfl⟩

theorem j_type_pc_next (cpu : R4300CPU) (instr opcode : Nat) :
    (cpu.execute_j_type instr opcode).cpu.registers.pc = cpu.registers.pc ∧
    (cpu.execute_j_type instr opcode).cpu.registers.next_pc = cpu.registers.next_pc := by
  simp only [R4300CPU.execute_j_type, R4300CPU.withGpr]
  split_ifs <;> exact ⟨rfl, rfl⟩

theorem execute_pc_next (cpu : R4300CPU) (instr : Nat) (mem : RDRAMMemory) :
    (cpu.execute_instruction instr mem).cpu.registers.pc = cpu.registers.pc ∧
    (cpu.execute_instruction instr mem).cpu.registers.next_pc = cpu.registers.next_pc := by
  simp only [R4300CPU.execute_instruction]
  split_ifs
  · exact ⟨(r_type_regs cpu instr mem).1, (r_type_regs cpu instr mem).2⟩
  · exact j_type_pc_next cpu instr _
  · exact ⟨(i_type_regs cpu instr _ mem).1, (i_type_regs cpu instr _ mem).2⟩

theorem step_preserves (cpu : R4300CPU) (mem : RDRAMMemory)
    (h4 : 4 ∣ cpu.registers.pc) (hnp : cpu.registers.next_pc = 0) :
    4 ∣ (cpu.step mem).cpu.registers.pc ∧ (cpu.step mem).cpu.registers.next_pc = 0 := by
  by_cases hr : cpu.running = true
  · obtain ⟨hpc, hnx⟩ := execute_pc_next cpu (cpu.fetch_instruction mem) mem
    cases hex : cpu.execute_instruction (cpu.fetch_instruction mem) mem with
    | ok cpu1 =>
      rw [hex] at hpc hnx
      simp only [ExecResult.cpu] at hpc hnx
      rw [step_ok cpu mem cpu1 hr hex]
      simp only [ExecResult.cpu]
      unfold retireAux
      rw [if_neg (show ¬cpu1.registers.next_pc ≠ 0 from by rw [hnx, hnp]; simp)]
      refine ⟨?_, ?_⟩
      · show 4 ∣ cpu1.registers.pc + 4
        rw [hpc]
        omega
      · show cpu1.registers.next_pc = 0
        rw [hnx, hnp]
    | attrError cpu1 =>
      rw [hex] at hpc hnx
      simp only [ExecResult.cpu] at hpc hnx
      rw [step_err cpu mem cpu1 hr hex]
      simp only [ExecResult.cpu]
      exact ⟨by rw [hpc]; exact h4, hnx.trans hnp⟩
  · have hr2 : (!cpu.running) = true := by simp [hr]
    unfold R4300CPU.step
    rw [if_pos hr2]
    exact ⟨h4, hnp⟩

/-- Running CPU at pc 0x80001000, the C8 scenario. -/
def cpuC8 : R4300CPU :=
  R4300CPU.mk (R4300Registers.mk (List.replicate 32 0) 0 0 0x80001000 0)
    (List.replicate 32 0) 0 true

/-- Memory whose word at offset 0x1000 encodes J with target field
0x000001 (big-endian 0x08000001). -/
def memC8 : RDRAMMemory :=
  RDRAMMemory.mk (List.replicate 0x1000 0 ++ [0x08, 0x00, 0x00, 0x01]) 0x1004

theorem memC8_length : memC8.dram.length = 0x1004 := by
  show (List.replicate 0x1000 0 ++ [0x08, 0x00, 0x00, 0x01]).length = 0x1004
  rw [List.length_append, List.length_replicate]
  rfl

theorem fetch_memC8 : cpuC8.fetch_instruction memC8 = 0x08000001 := by
  have hpc : cpuC8.registers.pc = 0x80001000 := rfl
  unfold R4300CPU.fetch_instruction
  rw [hpc, memC8_length]
  rw [if_neg (by norm_num : ¬((0x80001000 : Nat) < 0x80000000 ∨ (0x80800000 : Nat) ≤ 0x80001000))]
  rw [if_neg (by norm_num : ¬((0x80001000 : Nat) - 0x80000000 + 4 > 0x1004))]
  have hsub : (0x80001000 : Nat) - 0x80000000 = 0x1000 := by norm_num
  rw [hsub]
  have hdrop : memC8.dram.drop 0x1000 = [0x08, 0x00, 0x00, 0x01] := by
    show (List.replicate 0x1000 0 ++ [0x08, 0x00, 0x00, 0x01]).drop 0x1000 = _
    rw [List.drop_left' (by rw [List.length_replicate])]
  rw [hdrop]
  rfl

theorem exec_memC8 :
    cpuC8.execute_instruction (cpuC8.fetch_instruction memC8) memC8 =
      ExecResult.attrError cpuC8 := by
  rw [fetch_memC8]
  decide

theorem step_memC8 : cpuC8.step memC8 = ExecResult.attrError cpuC8 :=
  step_err cpuC8 memC8 cpuC8 rfl exec_memC8

/-- C8: executing a J instruction does not set a pending transfer target
and no next instruction executes -- the assignment to next_pc rebinds a
field of the immutable registers namedtuple and raises AttributeError.
At the claim's own instance (J with target field 1 fetched at pc
0x80001000 on a running CPU) the step aborts with the state unchanged:
next_pc is still 0, no pending target was recorded, and pc is still
0x80001000 rather than the claimed 0x80000004. The retire logic of step
(which rebinds fields correctly through the namedtuple replace helper)
and the reset initialisation of next_pc show the transfer is the intent
and the plain field assignment a slip. -/
theorem c8_jump_raises :
    cpuC8.step memC8 = ExecResult.attrError cpuC8 ∧
    (cpuC8.step memC8).cpu.registers.next_pc = 0 ∧
    (cpuC8.step memC8).cpu.registers.pc = 0x80001000 ∧
    (0x80001000 : Nat) ≠ 0x80000004 := by
  refine ⟨step_memC8, ?_, ?_, by decide⟩ <;> rw [step_memC8] <;> rfl

/-- C10 counterexample: a J or JAL transfer target is never applied to
pc -- from pc 0x80001000 with target field 1 the step raises
AttributeError and aborts with pc still 0x80001000, which is not the
transfer target (0x80001000 band 0xF0000000) bor (1 shifted left by 2) =
0x80000004 whose alignment the claim invokes. -/
theorem c10_counterexample :
    (cpuC8.step memC8).raised = true ∧
    (cpuC8.step memC8).cpu.registers.pc = 0x80001000 ∧
    (0x80001000 : Nat) ≠ (0x80001000 &&& 0xF0000000) ||| (1 <<< 2) := by
  refine ⟨?_, ?_, by decide⟩ <;> rw [step_memC8] <;> rfl

/-- C10 (amended): from the reset state with the running flag raised,
the pc stays a multiple of 4 across any sequence of step attempts -- but
only the sequential advance by 4 ever changes it: a completed step
retires pc + 4 (a pending transfer is never recorded, next_pc stays 0
because the J/JAL assignment raises before writing it), and a step
aborted by that AttributeError leaves pc untouched. -/
theorem c10_pc_alignment (cpu : R4300CPU) (mems : List RDRAMMemory) :
    4 ∣ (mems.foldl (fun (c : R4300CPU) (m : RDRAMMemory) => (c.step m).cpu)
      { cpu.reset with running := true }).registers.pc := by
  have main : ∀ (ms : List RDRAMMemory) (c : R4300CPU),
      4 ∣ c.registers.pc → c.registers.next_pc = 0 →
      4 ∣ (ms.foldl (fun (c : R4300CPU) (m : RDRAMMemory) => (c.step m).cpu) c).registers.pc ∧
        (ms.foldl (fun (c : R4300CPU) (m : RDRAMMemory) => (c.step m).cpu) c).registers.next_pc = 0 := by
    intro ms
    induction ms with
    | nil => exact fun c h1 h2 => ⟨h1, h2⟩
    | cons m ms ih =>
      intro c h1 h2
      rw [List.foldl_cons]
      have h3 := step_preserves c m h1 h2
      exact ih _ h3.1 h3.2
  have hstart : ({ cpu.reset with running := true } : R4300CPU).registers.pc = 0x80000000 := rfl
  exact (main mems _ (by rw [hstart]; omega) rfl).1

/-! ### Claim C9: the RDP command processor -/

theorem process_command_behaviour (r : RDP) (w : Nat) (h : r.command_buffer.length ≤ 1) :
    (r.process_command w).command_buffer.length ≤ 1 ∧
    (r.process_command w).triangles_rendered =
      r.triangles_rendered +
        (if r.command_buffer.length = 1 ∧
            0x08 ≤ (r.command_buffer.getD 0 0 >>> 24) &&& 0x3F ∧
            (r.command_buffer.getD 0 0 >>> 24) &&& 0x3F ≤ 0x0F
          then 1 else 0) ∧
    (r.command_buffer.length = 1 → (r.process_command w).command_buffer = []) := by
  match hb : r.command_buffer with
  | [] =>
    simp [RDP.process_command, hb]
  | [h0] =>
    simp only [RDP.process_command, RDP.execute_rdp_command, RDP.render_triangle, hb]
    norm_num
    by_cases hc : 0x08 ≤ (h0 >>> 24) &&& 0x3F ∧ (h0 >>> 24) &&& 0x3F ≤ 0x0F
    · rw [if_pos hc, if_pos hc]
    · rw [if_neg hc, if_neg hc]
      simp
  | h0 :: h1 :: t =>
    rw [hb] at h
    simp at h

theorem submitAll_buffer_le_one (ws : List Nat) (r : RDP)
    (h : r.command_buffer.length ≤ 1) :
    (submitAll r ws).command_buffer.length ≤ 1 := by
  induction ws generalizing r with
  | nil => simpa [submitAll] using h
  | cons w ws ih =>
    rw [submitAll, List.foldl_cons]
    exact ih _ (process_command_behaviour r w h).1

/-- C9: starting from the empty queue, every reachable CommandProcessor
state holds at most one queued word; a submit that completes a pair
clears the queue and bumps the primitive counter by exactly 1 when bits
29..24 of the queued high word lie in 0x08..0x0F, leaving it unchanged
otherwise. -/
theorem c9_queue_and_counter (ws : List Nat) (w : Nat) :
    (submitAll RDP.init ws).command_buffer.length ≤ 1 ∧
    ((submitAll RDP.init ws).process_command w).triangles_rendered =
      (submitAll RDP.init ws).triangles_rendered +
        (if (submitAll RDP.init ws).command_buffer.length = 1 ∧
            0x08 ≤ ((submitAll RDP.init ws).command_buffer.getD 0 0 >>> 24) &&& 0x3F ∧
            ((submitAll RDP.init ws).command_buffer.getD 0 0 >>> 24) &&& 0x3F ≤ 0x0F
          then 1 else 0) ∧
    ((submitAll RDP.init ws).command_buffer.length = 1 →
      ((submitAll RDP.init ws).process_command w).command_buffer = []) := by
  have hlen : (submitAll RDP.init ws).command_buffer.length ≤ 1 :=
    submitAll_buffer_le_one ws RDP.init (by simp [RDP.init])
  have hb := process_command_behaviour (submitAll RDP.init ws) w hlen
  exact ⟨hlen, hb.2.1, hb.2.2⟩

/-- C9 witness: a queued high word with command type 0x08 and a second
word complete a primitive; the counter reaches 1 and the queue clears. -/
theorem c9_witness :
    ((submitAll RDP.init [0x08000000]).process_command 0).triangles_rendered = 1 ∧
    ((submitAll RDP.init [0x08000000]).process_command 0).command_buffer = [] :=
  ⟨((c9_queue_and_counter [0x08000000] 0).2.1).trans (by decide),
    (c9_queue_and_counter [0x08000000] 0).2.2 (by decide)⟩
